import Mathlib

/-!
Verification development for the API-Testing-Agent repository.

The repository tests HTTP upload endpoints from a Postman collection against a
pool of classified documents, retrying a failed endpoint at most once with a
document matched to the type suggested by a diagnosis oracle.

We give a shallow embedding of the relevant Python code
(`agents/api_testing_agent.py`, `agents/document_classifier_agent.py`,
`agents/workflow.py`) as executable Lean definitions.  External effects
(file system, HTTP transport, the Gemini oracles, the random generator) are
modelled as oracle functions passed in explicitly; each HTTP/diagnosis call is
keyed by a running counter so that the oracles may answer differently on every
call, matching a stateful external world.
-/

/-- Python `os.path.basename`: the part of the path after the last `/`. -/
def basename (p : String) : String :=
  String.mk ((p.data.reverse.takeWhile (fun c => !(c == '/'))).reverse)

/-- Python string slicing `s[:n]`. -/
def truncateStr (n : Nat) (s : String) : String :=
  String.mk (s.data.take n)

/-- Python `needle in hay` on lists of characters (contiguous substring test,
the empty needle matches everything). -/
def containsSubL (n : List Char) : List Char → Bool
  | [] => n.isEmpty
  | c :: t => n.isPrefixOf (c :: t) || containsSubL n t

/-- Python `a in b` for strings. -/
def pyIn (a b : String) : Bool := containsSubL a.data b.data

/-- Substring relation as a proposition: `n` occurs contiguously inside `h`. -/
def containsSubP (n h : List Char) : Prop := ∃ s t, h = s ++ n ++ t

/-- Python `s.lower()` (ASCII case mapping, which is all the agent compares). -/
def pyLower (s : String) : String := String.mk (s.data.map Char.toLower)

/-- Classification record held in the agent's `doc_map`
(`\x7b"file_path": \x7b"document_type": ..., "confidence": ...\x7d\x7d`).
Only the `document_type` field is ever read by the testing agent; `none`
models the key being absent from the Python dict. -/
structure DocInfo where
  document_type : Option String
deriving DecidableEq, Repr

/-- The agent's `doc_map`: an insertion-ordered mapping from document path to
classification, modelled as an association list (Python dicts preserve
insertion order). -/
abbrev DocMap := List (String × DocInfo)

/-- Python dict lookup `m[k]` / `m.get(k)` on an association list. -/
def lookupD (m : DocMap) (k : String) : Option DocInfo :=
  (m.find? (fun e => e.1 == k)).map (fun e => e.2)

/-- Embedding of `APITestingAgent._find_document_by_type`: walk `doc_map` in
insertion order and return the first path whose lowercased classified type and
the lowercased required type are substrings of one another in either
direction.

Python source:
```
doc_type_lower = doc_type.lower()
for file_path, info in self.doc_map.items():
    classified_type = info.get("document_type", "").lower()
    if doc_type_lower in classified_type or classified_type in doc_type_lower:
        return file_path
return None
```
-/
def find_document_loop (doc_type_lower : String) : DocMap → Option String
  | [] => none
  | (file_path, info) :: rest =>
      let classified_type := pyLower (info.document_type.getD "")
      if pyIn doc_type_lower classified_type || pyIn classified_type doc_type_lower then
        some file_path
      else
        find_document_loop doc_type_lower rest

/-- Entry point of `_find_document_by_type` (lowercases the required type then
runs the loop). -/
def find_document_by_type (doc_map : DocMap) (doc_type : String) : Option String :=
  find_document_loop (pyLower doc_type) doc_map

/-- The spec-side matching relation of §4.3: case-insensitive substring match
in either direction between the required type and the classified type label. -/
def typeMatches (doc_type : String) (info : DocInfo) : Prop :=
  containsSubP (pyLower doc_type).data (pyLower (info.document_type.getD "")).data ∨
  containsSubP (pyLower (info.document_type.getD "")).data (pyLower doc_type).data

/-- The boolean match condition exactly as the loop of
`_find_document_by_type` tests it. -/
def typeMatchesB (doc_type : String) (info : DocInfo) : Bool :=
  pyIn (pyLower doc_type) (pyLower (info.document_type.getD "")) ||
  pyIn (pyLower (info.document_type.getD "")) (pyLower doc_type)

/-- Environment mapping (`self.env_vars`), insertion ordered. -/
abbrev EnvMap := List (String × String)

/-- Python `self.env_vars.get(name)` on the environment. -/
def lookupEnv (env : EnvMap) (k : String) : Option String :=
  (env.find? (fun e => e.1 == k)).map (fun e => e.2)

/-- Characters the regex class `[^\x7d]` accepts: everything but `\x7d`. -/
def notRBrace (c : Char) : Bool := !(c == '\x7d')

/-- Does the list start with the two characters `\x7d\x7d`? -/
def startsWithRR : List Char → Bool
  | '\x7d' :: '\x7d' :: _ => true
  | _ => false

/-- Fuel-indexed engine for `re.sub(r"\x7b\x7b([^\x7d]+)\x7d\x7d", replacer, text)`:
scan left to right; at `\x7b\x7b` the greedy group takes the maximal run of
non-`\x7d` characters, the match succeeds iff that run is non-empty and is
followed by `\x7d\x7d`.  On success the match is replaced by the environment
value when the name is bound (`replacer` returns `match.group(0)` otherwise,
i.e. the matched text is kept) and scanning resumes after the match (`re.sub`
never rescans a replacement).  On failure scanning resumes one character
later; since the group characters cannot contain `\x7d`, no match can start
before the end of the failed run, so we may emit the whole run and resume at
its end.  The fuel only serves termination; `fuel = length of the input`
always suffices because every recursive call consumes at least one
character. -/
def replaceVarsFuel (env : EnvMap) : Nat → List Char → List Char
  | 0, l => l
  | _ + 1, [] => []
  | f + 1, c :: l =>
    if c = '\x7b' then
      match l with
      | [] => [c]
      | c2 :: l2 =>
        if c2 = '\x7b' then
          let run := l2.takeWhile notRBrace
          let tail := l2.dropWhile notRBrace
          if run = [] then
            c :: c2 :: replaceVarsFuel env f l2
          else if startsWithRR tail then
            (match lookupEnv env (String.mk run) with
             | some v => v.data
             | none => c :: c2 :: (run ++ ['\x7d', '\x7d'])) ++ replaceVarsFuel env f (tail.drop 2)
          else
            c :: c2 :: (run ++ replaceVarsFuel env f tail)
        else
          c :: replaceVarsFuel env f (c2 :: l2)
    else
      c :: replaceVarsFuel env f l

/-- Embedding of `APITestingAgent._replace_variables`. -/
def replace_variables (env : EnvMap) (text : String) : String :=
  String.mk (replaceVarsFuel env text.data.length text.data)

/-- Abstract template pieces used to state what `_replace_variables` does:
a template is a sequence of brace-free literal chunks and `\x7b\x7bname\x7d\x7d`
placeholders with non-empty brace-free names. -/
inductive TPiece where
  | lit (s : List Char)
  | var (n : List Char)

/-- Render a template to the raw text the agent would receive. -/
def renderT : List TPiece → List Char
  | [] => []
  | .lit s :: ts => s ++ renderT ts
  | .var n :: ts => '\x7b' :: '\x7b' :: (n ++ '\x7d' :: '\x7d' :: renderT ts)

/-- Spec-side substitution semantics (§4.2): each placeholder is replaced by
its environment value verbatim when bound, and kept literally otherwise;
literal chunks pass through unchanged. -/
def substT (env : EnvMap) : List TPiece → List Char
  | [] => []
  | .lit s :: ts => s ++ substT env ts
  | .var n :: ts =>
      (match lookupEnv env (String.mk n) with
       | some v => v.data
       | none => '\x7b' :: '\x7b' :: (n ++ ['\x7d', '\x7d'])) ++ substT env ts

/-- Well-formedness of a template piece: literals contain no braces, names are
non-empty and contain no braces. -/
def TPiece.wf : TPiece → Prop
  | .lit s => '\x7b' ∉ s ∧ '\x7d' ∉ s
  | .var n => n ≠ [] ∧ '\x7b' ∉ n ∧ '\x7d' ∉ n

instance : (p : TPiece) → Decidable p.wf := fun p => by
  cases p <;> (simp only [TPiece.wf]; infer_instance)

/-- Embedding of `DocumentClassifierAgent.classify_documents`, polymorphic in
the classification record type.  `walked` is the list of file paths produced
by the `os.walk` loop, `cache` the contents loaded from the cache file,
`oracle` the Gemini classification call (`none` models
`_ask_gemini_to_classify` failing), `failed` the record stored on oracle
failure (`\x7b"document_type": "failed", "confidence": 0.0\x7d` in the source).
Returns the final results mapping together with the number of classification
calls issued.  The save-to-cache-file step is pure I/O and is not modelled. -/
def classify_documents {α : Type} (failed : α) (cache : List (String × α))
    (walked : List String) (oracle : String → Option α) :
    List (String × α) × Nat :=
  let all_files := walked.filter
    (fun f => !(".".data.isPrefixOf (basename f).data) && !(".md".data.isSuffixOf f.data))
  let new_files := all_files.filter (fun f => !(cache.any (fun e => e.1 == f)))
  (new_files.foldl (fun r f => r ++ [(f, (oracle f).getD failed)]) cache,
   new_files.length)

/-- JSON whitespace characters. -/
def isJsonWs (c : Char) : Bool := c == ' ' || c == '\t' || c == '\n' || c == '\r'

/-- Skip leading JSON whitespace. -/
def skipWs (l : List Char) : List Char := l.dropWhile isJsonWs

/-- JSON string escapes handled by `json.loads` (the `\uXXXX` form is not
modelled; no input in this development uses it). -/
def escChar? (c : Char) : Option Char :=
  if c = '"' then some '"'
  else if c = '\\' then some '\\'
  else if c = '/' then some '/'
  else if c = 'b' then some '\x08'
  else if c = 'f' then some '\x0c'
  else if c = 'n' then some '\n'
  else if c = 'r' then some '\r'
  else if c = 't' then some '\t'
  else none

/-- JSON values as produced by `json.loads` (numbers restricted to integers;
no input in this development uses fractions or exponents). -/
inductive JsonVal where
  | null
  | bool (b : Bool)
  | num (n : Int)
  | str (s : String)
  | arr (elems : List JsonVal)
  | obj (fields : List (String × JsonVal))

/-- Parse the body of a JSON string literal (after the opening quote), strict
about raw control characters like `json.loads`. -/
def parseStrBody : List Char → Option (List Char × List Char)
  | [] => none
  | '"' :: r => some ([], r)
  | '\\' :: c :: r =>
      match escChar? c with
      | some e => (parseStrBody r).map (fun p => (e :: p.1, p.2))
      | none => none
  | c :: r =>
      if c.toNat < 32 then none
      else (parseStrBody r).map (fun p => (c :: p.1, p.2))

/-- Parse a run of decimal digits into a number, rejecting the fraction and
exponent forms (modelled integer subset of JSON numbers). -/
def parseNatJ (l : List Char) : Option (Nat × List Char) :=
  let ds := l.takeWhile (fun c => c.isDigit)
  let rest := l.dropWhile (fun c => c.isDigit)
  if ds = [] then none
  else
    match rest with
    | '.' :: _ => none
    | 'e' :: _ => none
    | 'E' :: _ => none
    | _ => some (ds.foldl (fun a c => a * 10 + (c.toNat - 48)) 0, rest)

mutual

/-- Recursive-descent JSON value parser (fuel only serves termination; the
wrapper passes more fuel than any input can consume). -/
def parseValue : Nat → List Char → Option (JsonVal × List Char)
  | 0, _ => none
  | f + 1, l =>
    match skipWs l with
    | '\x7b' :: r =>
      match skipWs r with
      | '\x7d' :: r2 => some (.obj [], r2)
      | r2 => parseMembers f r2 []
    | '[' :: r =>
      match skipWs r with
      | ']' :: r2 => some (.arr [], r2)
      | r2 => parseElems f r2 []
    | '"' :: r => (parseStrBody r).map (fun p => (.str (String.mk p.1), p.2))
    | 't' :: 'r' :: 'u' :: 'e' :: r => some (.bool true, r)
    | 'f' :: 'a' :: 'l' :: 's' :: 'e' :: r => some (.bool false, r)
    | 'n' :: 'u' :: 'l' :: 'l' :: r => some (.null, r)
    | '-' :: r => (parseNatJ r).map (fun p => (.num (-(p.1 : Int)), p.2))
    | r => (parseNatJ r).map (fun p => (.num (p.1 : Int), p.2))

/-- Parse the members of a JSON object after its opening brace (duplicate keys
are appended; lookups take the last occurrence, as Python dicts do). -/
def parseMembers : Nat → List Char → List (String × JsonVal) →
    Option (JsonVal × List Char)
  | 0, _, _ => none
  | f + 1, l, acc =>
    match skipWs l with
    | '"' :: r =>
      match parseStrBody r with
      | some (key, r2) =>
        match skipWs r2 with
        | ':' :: r3 =>
          match parseValue f r3 with
          | some (v, r4) =>
            match skipWs r4 with
            | ',' :: r5 => parseMembers f r5 (acc ++ [(String.mk key, v)])
            | '\x7d' :: r5 => some (.obj (acc ++ [(String.mk key, v)]), r5)
            | _ => none
          | none => none
        | _ => none
      | none => none
    | _ => none

/-- Parse the elements of a JSON array after its opening bracket. -/
def parseElems : Nat → List Char → List JsonVal → Option (JsonVal × List Char)
  | 0, _, _ => none
  | f + 1, l, acc =>
    match parseValue f l with
    | some (v, r) =>
      match skipWs r with
      | ',' :: r2 => parseElems f r2 (acc ++ [v])
      | ']' :: r2 => some (.arr (acc ++ [v]), r2)
      | _ => none
    | none => none

end

/-- Embedding of `json.loads`: parse one JSON value and require that nothing
but whitespace follows (Python raises `Extra data` otherwise, which the agent
code turns into `None` via its `except` clause). -/
def json_loads (s : String) : Option JsonVal :=
  match parseValue (s.data.length + 1) s.data with
  | some (v, rest) => if skipWs rest = [] then some v else none
  | none => none

/-- Python `result.get("required_document_type")` restricted to string values
(the diagnosis oracle's contract returns a string; a non-string truthy value
would crash the agent later in `str.lower`, a path outside this model). -/
def jsonGetStr (j : JsonVal) (k : String) : Option String :=
  match j with
  | .obj fields =>
      match fields.reverse.find? (fun e => e.1 == k) with
      | some (_, JsonVal.str s) => some s
      | _ => none
  | _ => none

/-- Python whitespace stripped by `str.strip`. -/
def isPyWs (c : Char) : Bool :=
  c == ' ' || c == '\t' || c == '\n' || c == '\r' || c == '\x0b' || c == '\x0c'

/-- Python `text.strip()`. -/
def pyStrip (s : String) : String :=
  String.mk (((s.data.dropWhile isPyWs).reverse.dropWhile isPyWs).reverse)

/-- The prefix of `l` up to and including its last `\x7d`. -/
def upToLastRB (l : List Char) : List Char :=
  (l.reverse.dropWhile notRBrace).reverse

/-- The suffix of `l` after its last `\x7d` (contains no `\x7d`). -/
def afterLastRB (l : List Char) : List Char :=
  (l.reverse.takeWhile notRBrace).reverse

/-- Embedding of `re.search(r"\x7b[\s\S]*\x7d", text)`: the leftmost match
starts at the first `\x7b` that has some `\x7d` after it, and the greedy
`[\s\S]*` extends the match to the last `\x7d` of the text. -/
def reSearchGreedy : List Char → Option (List Char)
  | [] => none
  | c :: rest =>
      if c = '\x7b' && rest.contains '\x7d' then some ('\x7b' :: upToLastRB rest)
      else reSearchGreedy rest

/-- The JSON-extraction core of `_ask_gemini_what_went_wrong`: strip the
response text, regex-search for the brace-to-brace span, `json.loads` it (a
parse failure raises and is caught, yielding `None`), and take its
`required_document_type` field. -/
def extract_required_type (text : String) : Option String :=
  match reSearchGreedy (pyStrip text).data with
  | some span =>
      match json_loads (String.mk span) with
      | some j => jsonGetStr j "required_document_type"
      | none => none
  | none => none

/-- Modelled from the spec: "the core extracts the first well-formed JSON
object found in the response text" — the leftmost position at which a JSON
value parse starting at a `\x7b` succeeds, trailing text ignored.  This is the
spec's words, stated for comparison with the source's greedy-regex
extraction. -/
def scanFirstJson : List Char → Option JsonVal
  | [] => none
  | c :: rest =>
      if c = '\x7b' then
        match parseValue (rest.length + 2) (c :: rest) with
        | some (v, _) => some v
        | none => scanFirstJson rest
      else scanFirstJson rest

/-- Modelled from the spec: extraction as the spec describes it — the
`required_document_type` field of the first well-formed JSON object found
anywhere in the (stripped) response text. -/
def spec_extract_required_type (text : String) : Option String :=
  match scanFirstJson (pyStrip text).data with
  | some j => jsonGetStr j "required_document_type"
  | none => none

/-- Result record of one HTTP dispatch, mirroring the two dict shapes built by
`APITestingAgent._test_one_api`: `completed` is the record returned after the
transport call returns a response, `errored` the record built in the `except`
clause (which lacks the method/url/status/document-type keys). -/
inductive AttemptResult where
  | completed (api_name method url file_used : String) (document_type : Option String)
      (success : Bool) (status_code : Nat) (error_message : String)
      (response_headers : List (String × String))
  | errored (api_name file_used error_message : String)
deriving DecidableEq, Repr

/-- The `success` field of an attempt record (`False` in the except clause). -/
def AttemptResult.success : AttemptResult → Bool
  | .completed _ _ _ _ _ s _ _ _ => s
  | .errored _ _ _ => false

/-- The `error_message` field (present in both record shapes). -/
def AttemptResult.error_message : AttemptResult → String
  | .completed _ _ _ _ _ _ _ e _ => e
  | .errored _ _ e => e

/-- The `file_used` field (present in both record shapes). -/
def AttemptResult.file_used : AttemptResult → String
  | .completed _ _ _ f _ _ _ _ _ => f
  | .errored _ f _ => f

/-- The `api_name` field (present in both record shapes). -/
def AttemptResult.api_name : AttemptResult → String
  | .completed n _ _ _ _ _ _ _ _ => n
  | .errored n _ _ => n

/-- Python `result.get("status_code")`: `None` for the except-clause record. -/
def AttemptResult.status_code? : AttemptResult → Option Nat
  | .completed _ _ _ _ _ _ c _ _ => some c
  | .errored _ _ _ => none

/-- Python `result.get("method", "POST")` as used by the report step. -/
def AttemptResult.get_method : AttemptResult → String
  | .completed _ m _ _ _ _ _ _ _ => m
  | .errored _ _ _ => "POST"

/-- Python `result.get("url", "")` as used by the report step. -/
def AttemptResult.get_url : AttemptResult → String
  | .completed _ _ u _ _ _ _ _ _ => u
  | .errored _ _ _ => ""

/-- Python `result.get("document_type", "unknown")` as used by the report
step: the completed record always carries the key (its value may be Python
`None`, modelled as `none`); the except-clause record lacks it, so the
default `"unknown"` applies. -/
def AttemptResult.get_document_type : AttemptResult → Option String
  | .completed _ _ _ _ dt _ _ _ _ => dt
  | .errored _ _ _ => some "unknown"

/-- HTTP response as seen through the `requests` library. -/
structure Response where
  status_code : Nat
  text : String
  headers : List (String × String)
deriving DecidableEq, Repr

/-- A resolved form field: either a templated text value or the attached
document (filename, raw bytes, content type), mirroring the tuples
`_build_request` builds for `requests`. -/
inductive FormValue where
  | text (v : String)
  | file (filename : String) (content : List Nat) (mime : String)
deriving DecidableEq, Repr

/-- The `\x7b"files": ..., "content": ...\x7d` pair returned by
`_build_request` (either component may be `None`). -/
structure BodyData where
  files : Option (List (Option String × FormValue))
  content : Option (List Nat)
deriving DecidableEq, Repr

/-- How `_test_one_api` hands the body to `requests.request`, following
Python truthiness: a non-empty `files` list wins, else non-empty raw
`content` bytes, else no body. -/
inductive Payload where
  | files (parts : List (Option String × FormValue))
  | content (data : List Nat)
  | plain
deriving DecidableEq, Repr

/-- The body-selection logic of `_test_one_api` (`if body_data.get("files"):
... elif body_data.get("content"): ... else: ...`); an empty list and empty
bytes are falsy in Python. -/
def payloadOf (bd : BodyData) : Payload :=
  match bd.files with
  | some (p :: ps) => .files (p :: ps)
  | _ =>
    match bd.content with
    | some (b :: bs) => .content (b :: bs)
    | _ => .plain

/-- The `url` entry of a Postman request: a dict with a `raw` key, a plain
string, or absent (Python then computes `str(None) = "None"`). -/
inductive UrlField where
  | urlDict (raw : Option String)
  | urlStr (s : String)
  | urlMissing
deriving DecidableEq, Repr

/-- One entry of the Postman `header` list. -/
structure HeaderItem where
  key : Option String
  value : Option String
deriving DecidableEq, Repr

/-- One entry of a Postman `formdata` list. -/
structure FormField where
  key : Option String
  type : Option String
  value : Option String
deriving DecidableEq, Repr

/-- The Postman `body` dict: its `mode` string and its `formdata` list
(`body.get("formdata", [])`). -/
structure BodySpec where
  mode : Option String
  formdata : List FormField
deriving DecidableEq, Repr

/-- The `request` dict of a Postman item, restricted to the keys
`_build_request` reads. -/
structure ApiRequest where
  method : Option String
  url : UrlField
  header : List HeaderItem
  body : Option BodySpec
deriving DecidableEq, Repr

/-- A Postman item carrying a request (`api.get("name", "unnamed")` supplies
the display name). -/
structure ApiConfig where
  name : Option String
  request : ApiRequest
deriving DecidableEq, Repr

/-- Python dict assignment `headers[k] = v`: overwrite in place when the key
exists, append otherwise. -/
def dictInsert (m : List (String × String)) (k v : String) : List (String × String) :=
  if m.any (fun e => e.1 == k) then m.map (fun e => if e.1 == k then (k, v) else e)
  else m ++ [(k, v)]

/-- Python `os.path.splitext(p)[1].lower()`: the (lowercased) extension of
the basename, where leading dots of the basename never start an extension. -/
def splitextExtLower (p : String) : String :=
  let b := (basename p).data
  let lead := (b.takeWhile (fun c => c == '.')).length
  let afterDot := b.reverse.takeWhile (fun c => !(c == '.'))
  if b.contains '.' then
    if lead ≤ b.length - 1 - afterDot.length then
      String.mk ('.' :: (afterDot.reverse.map Char.toLower))
    else ""
  else ""

/-- The fallback content-type table of `_build_request` (keyed on the file
extension only, never on the classified type). -/
def mimeFallback (ext : String) : String :=
  if ext = ".pdf" then "application/pdf"
  else if ext = ".jpg" then "image/jpeg"
  else if ext = ".jpeg" then "image/jpeg"
  else if ext = ".png" then "image/png"
  else "application/octet-stream"

/-- Embedding of `APITestingAgent._build_request`.  `fs` models reading a
file's bytes (`Except.error` is an I/O failure, which propagates to the
caller's `except` clause); `guessMime` models `mimetypes.guess_type`.
Returns `(method, url, headers, body_data)`. -/
def build_request (env : EnvMap) (fs : String → Except String (List Nat))
    (guessMime : String → Option String) (api : ApiConfig) (file_path : String) :
    Except String (String × String × List (String × String) × BodyData) := do
  let request_data := api.request
  let method := request_data.method.getD "POST"
  let url0 :=
    match request_data.url with
    | .urlDict raw => raw.getD ""
    | .urlStr s => s
    | .urlMissing => "None"
  let url := replace_variables env url0
  let headers := request_data.header.foldl (fun acc h =>
    match h.key with
    | some k =>
        if k ≠ "" then dictInsert acc k (replace_variables env (h.value.getD ""))
        else acc
    | none => acc) []
  let mode := request_data.body.bind (fun b => b.mode)
  if mode = some "formdata" then
    let fdata := (request_data.body.map (fun b => b.formdata)).getD []
    let fields ← fdata.foldlM
      (fun (acc : List (Option String × FormValue)) field => do
        if field.type = some "file" then
          let file_content ← fs file_path
          let mime_type :=
            match guessMime file_path with
            | some m => if m = "" then mimeFallback (splitextExtLower file_path) else m
            | none => mimeFallback (splitextExtLower file_path)
          pure (acc ++ [(field.key, .file (basename file_path) file_content mime_type)])
        else
          pure (acc ++ [(field.key, .text (replace_variables env (field.value.getD "")))]))
      []
    pure (method, url, headers, ⟨some fields, none⟩)
  else if mode = some "file" ∨ mode = some "binary" then
    let content ← fs file_path
    pure (method, url, headers, ⟨none, some content⟩)
  else
    pure (method, url, headers, ⟨none, none⟩)

/-- The external world of one run: file system, `mimetypes` table, HTTP
transport and diagnosis oracle (each keyed by a running call counter so
successive calls may answer differently), and the random document picker
(keyed by how many picks happened so far). -/
structure Oracles where
  fs : String → Except String (List Nat)
  guessMime : String → Option String
  transport : Nat → String × String × List (String × String) × Payload → Except String Response
  diag : Nat → Option Nat × String → Except String String
  pick : Nat → List String → String

/-- Embedding of `APITestingAgent._test_one_api`: build the request, dispatch
it (transport call number `k`), and classify the outcome — success iff the
status code is one of 200/201/204; any exception from building (file I/O) or
dispatching (network) degrades to the except-clause record.  This function is
total: no outcome aborts the run. -/
def test_one_api (o : Oracles) (env : EnvMap) (k : Nat) (api : ApiConfig)
    (file_path : String) (doc_info : DocInfo) : AttemptResult :=
  match build_request env o.fs o.guessMime api file_path with
  | .error e => .errored (api.name.getD "unnamed") file_path e
  | .ok (method, url, headers, body_data) =>
    match o.transport k (method, url, headers, payloadOf body_data) with
    | .error e => .errored (api.name.getD "unnamed") file_path e
    | .ok response =>
      let success := ([200, 201, 204] : List Nat).contains response.status_code
      .completed (api.name.getD "unnamed") method url file_path doc_info.document_type
        success response.status_code (if success then "" else response.text)
        response.headers

/-- Embedding of `APITestingAgent._ask_gemini_what_went_wrong`: the prompt
file read and the Gemini call are bundled into the `diag` oracle (call number
`g`); any exception yields `None`; otherwise the JSON-extraction core runs on
the response text.  The oracle receives the data the prompt is built from:
`result.get("status_code")` and the first 1000 characters of the error
message. -/
def ask_gemini_what_went_wrong (diag : Nat → Option Nat × String → Except String String)
    (g : Nat) (error_result : AttemptResult) : Option String :=
  match diag g (error_result.status_code?, truncateStr 1000 error_result.error_message) with
  | .error _ => none
  | .ok text => extract_required_type text

/-- One recorded entry of the `results` list of `test_apis`: the initial
attempt's record, plus the `retry_success` / `correct_document` keys that the
loop adds to that same dict when a retry succeeds (`retry_success` is only
ever set to `True`; `false` models the key being absent). -/
structure TestResult where
  base : AttemptResult
  retry_success : Bool
  correct_document : Option String
deriving DecidableEq, Repr

/-- The mutable state of one `test_apis` run: the recorded results, the
`used_documents` set (as a duplicate-free list), and the call counters for
the transport, diagnosis and pick oracles. -/
structure RunState where
  results : List TestResult
  used : List String
  tcount : Nat
  dcount : Nat
  pcount : Nat
deriving DecidableEq, Repr

/-- Python `set.add`. -/
def setAdd (l : List String) (a : String) : List String :=
  if a ∈ l then l else a :: l

/-- The candidate pool: `doc_map` entries whose path is not in
`used_documents`, in insertion order. -/
def available_docs (doc_map : DocMap) (used : List String) : DocMap :=
  doc_map.filter (fun e => !(used.contains e.1))

/-- Embedding of one iteration of the `for api in upload_apis` loop of
`APITestingAgent.test_apis`: skip when no unused document remains; otherwise
pick a random unused document, attempt the endpoint, and on failure consult
the diagnosis oracle and retry at most once with the first type-matching
document from `doc_map` (the retry search does not consult
`used_documents`).  Exactly one result record is appended per non-skipped
endpoint; the retry outcome only annotates it. -/
def test_apis_step (o : Oracles) (env : EnvMap) (doc_map : DocMap)
    (st : RunState) (api : ApiConfig) : RunState :=
  let available := available_docs doc_map st.used
  if available = [] then st
  else
    let random_file := o.pick st.pcount (available.map (fun e => e.1))
    let doc_info := (lookupD doc_map random_file).getD ⟨none⟩
    let result := test_one_api o env st.tcount api random_file doc_info
    if result.success then
      { results := st.results ++ [⟨result, false, none⟩]
        used := setAdd st.used random_file
        tcount := st.tcount + 1
        dcount := st.dcount
        pcount := st.pcount + 1 }
    else
      match ask_gemini_what_went_wrong o.diag st.dcount result with
      | some required_type =>
        if required_type ≠ "" then
          match find_document_by_type doc_map required_type with
          | some matching_doc =>
            let retry_result := test_one_api o env (st.tcount + 1) api matching_doc
              ((lookupD doc_map matching_doc).getD ⟨none⟩)
            if retry_result.success then
              { results := st.results ++ [⟨result, true, some matching_doc⟩]
                used := setAdd st.used matching_doc
                tcount := st.tcount + 2
                dcount := st.dcount + 1
                pcount := st.pcount + 1 }
            else
              { results := st.results ++ [⟨result, false, none⟩]
                used := st.used
                tcount := st.tcount + 2
                dcount := st.dcount + 1
                pcount := st.pcount + 1 }
          | none =>
            { results := st.results ++ [⟨result, false, none⟩]
              used := st.used
              tcount := st.tcount + 1
              dcount := st.dcount + 1
              pcount := st.pcount + 1 }
        else
          { results := st.results ++ [⟨result, false, none⟩]
            used := st.used
            tcount := st.tcount + 1
            dcount := st.dcount + 1
            pcount := st.pcount + 1 }
      | none =>
        { results := st.results ++ [⟨result, false, none⟩]
          used := st.used
          tcount := st.tcount + 1
          dcount := st.dcount + 1
          pcount := st.pcount + 1 }

/-- The initial run state (`results = []`, `used_documents = set()`). -/
def initState : RunState := ⟨[], [], 0, 0, 0⟩

/-- Embedding of the testing loop of `APITestingAgent.test_apis` over the
upload-capable endpoints.  (The source first loads the collection file and
filters the endpoints that need a file upload; a run is determined by the
resulting `upload_apis` list, over which the theorems quantify.) -/
def test_apis (o : Oracles) (env : EnvMap) (doc_map : DocMap)
    (upload_apis : List ApiConfig) : RunState :=
  upload_apis.foldl (test_apis_step o env doc_map) initState

/-- A `correctFiles` entry of the report (`docType` may be JSON null when the
classification record lacked a `document_type` key). -/
structure CorrectFileEntry where
  fileName : String
  docType : Option String
deriving DecidableEq, Repr

/-- A `failedFiles` entry of the report. -/
structure FailedFileEntry where
  nameOfFile : String
  docType : Option String
  errorMessage : String
deriving DecidableEq, Repr

/-- One per-endpoint entry of the report produced by `run_workflow` step 3. -/
structure ReportEntry where
  apiName : String
  method : String
  url : String
  correctFiles : List CorrectFileEntry
  failedFiles : List FailedFileEntry
deriving DecidableEq, Repr

/-- Embedding of the report reduction of `run_workflow` (step 3) for one
result record: the initial attempt goes to `correctFiles` or `failedFiles`
according to its `success` flag, and a successful retry appends its document
(with the type looked up in `doc_map`) to `correctFiles`. -/
def makeReportEntry (doc_map : DocMap) (r : TestResult) : ReportEntry :=
  let base : ReportEntry :=
    { apiName := r.base.api_name
      method := r.base.get_method
      url := r.base.get_url
      correctFiles :=
        if r.base.success then [⟨basename r.base.file_used, r.base.get_document_type⟩]
        else []
      failedFiles :=
        if r.base.success then []
        else [⟨basename r.base.file_used, r.base.get_document_type,
               truncateStr 200 r.base.error_message⟩] }
  match r.correct_document with
  | some correct_doc =>
      if r.retry_success ∧ correct_doc ≠ "" then
        { base with correctFiles := base.correctFiles ++
            [⟨basename correct_doc,
              some (((lookupD doc_map correct_doc).getD ⟨none⟩).document_type.getD "unknown")⟩] }
      else base
  | none => base

/-- Embedding of the full report reduction of `run_workflow` step 3. -/
def makeReport (doc_map : DocMap) (results : List TestResult) : List ReportEntry :=
  results.map (makeReportEntry doc_map)

/-! Concrete inputs used by the closed counterexample and witness theorems
below.  `fsOne` is a file system where every path reads one byte, `apiU` a
minimal upload endpoint (form body with one file field), and the `oC*`
worlds differ only in their transport/diagnosis scripts. -/

/-- A file system oracle on which every read succeeds with one byte. -/
def fsOne : String → Except String (List Nat) := fun _ => .ok [55]

/-- A minimal upload-capable endpoint: POST form body with one file field. -/
def apiU (nm : String) : ApiConfig :=
  { name := some nm
    request :=
      { method := some "POST"
        url := .urlStr "http://h/upload"
        header := []
        body := some { mode := some "formdata"
                       formdata := [{ key := some "file", type := some "file", value := none }] } } }

/-- World for the C1 counterexample: first transport call succeeds, second
fails with 422, any later call succeeds; the diagnosis oracle always blames a
missing passport; the picker takes the first available document. -/
def oC1 : Oracles :=
  { fs := fsOne
    guessMime := fun _ => none
    transport := fun k _ =>
      if k = 0 then .ok ⟨200, "", []⟩
      else if k = 1 then .ok ⟨422, "need passport", []⟩
      else .ok ⟨200, "", []⟩
    diag := fun _ _ => .ok "\x7b\"required_document_type\": \"passport\"\x7d"
    pick := fun _ l => l.headD "" }

/-- Document store for the C1 counterexample: the passport document comes
first in insertion order. -/
def dmC1 : DocMap := [("A", ⟨some "passport"⟩), ("B", ⟨some "invoice"⟩)]

/-- World for the C2 scenario (spec §8): the initial call fails with 422, the
retry succeeds with 201; the diagnosis oracle answers with free text around a
JSON object requiring a passport. -/
def oC2 : Oracles :=
  { fs := fsOne
    guessMime := fun _ => none
    transport := fun k _ =>
      if k = 0 then .ok ⟨422, "wrong doc type", []⟩
      else .ok ⟨201, "", []⟩
    diag := fun _ _ => .ok "Sure: \x7b\"required_document_type\": \"passport\"\x7d"
    pick := fun _ l => l.headD "" }

/-- Document store for the C2 scenario: an invoice and a passport scan. -/
def dmC2 : DocMap := [("inv.pdf", ⟨some "invoice"⟩), ("pass.pdf", ⟨some "passport_scan"⟩)]

/-- A diagnosis-oracle response text containing two well-formed JSON objects
separated by free text: the greedy regex span (first `\x7b` to last `\x7d`)
covers both objects and fails to parse, while the first well-formed JSON
object alone carries the required type. -/
def geminiText3 : String :=
  "\x7b\"required_document_type\": \"passport\"\x7d see also \x7b\"note\": \"irrelevant\"\x7d"

/-- World for the C3 null-diagnosis scenario: every transport call fails with
500 and the diagnosis oracle's response text contains no JSON object. -/
def oC3 : Oracles :=
  { fs := fsOne
    guessMime := fun _ => none
    transport := fun _ _ => .ok ⟨500, "boom", []⟩
    diag := fun _ _ => .ok "I cannot tell what went wrong."
    pick := fun _ l => l.headD "" }

/-- World for the C4 witness: the transport always answers 422. -/
def oC4 : Oracles :=
  { fs := fsOne
    guessMime := fun _ => none
    transport := fun _ _ => .ok ⟨422, "bad document", [("x", "y")]⟩
    diag := fun _ _ => .error "unused"
    pick := fun _ l => l.headD "" }

/-- World for the C10 scenario: the initial call fails with 422, the retry
fails with 500; the diagnosis oracle requires a passport. -/
def oC10 : Oracles :=
  { fs := fsOne
    guessMime := fun _ => none
    transport := fun k _ =>
      if k = 0 then .ok ⟨422, "wrong doc type", []⟩
      else .ok ⟨500, "still wrong", []⟩
    diag := fun _ _ => .ok "\x7b\"required_document_type\": \"passport\"\x7d"
    pick := fun _ l => l.headD "" }

/-- An endpoint whose request specification has no `method` key (for C9). -/
def api9 : ApiConfig :=
  { name := some "nomethod"
    request :=
      { method := none
        url := .urlStr "http://h/upload"
        header := []
        body := some { mode := some "formdata"
                       formdata := [{ key := some "file", type := some "file", value := none }] } } }

/-! Helper lemmas. -/

/-- Taking `List.headD` of a non-empty list yields a member (used to discharge the pick
oracle's membership obligation for the concrete `fun _ l => l.headD ""`). -/
theorem headD_mem (l : List String) (h : l ≠ []) : l.headD "" ∈ l := by
  cases l with
  | nil => exact absurd rfl h
  | cons a t => simp [List.headD]

/-- Adding to the Usage Set preserves freedom from duplicates (Python set semantics). -/
theorem setAdd_nodup (l : List String) (a : String) (h : l.Nodup) :
    (setAdd l a).Nodup := by
  unfold setAdd
  split
  · exact h
  · exact List.nodup_cons.mpr ⟨by assumption, h⟩

/-- Every attempt record produced by `test_one_api` carries as `file_used`
the document path it was called with. -/
theorem test_one_api_file_used (o : Oracles) (env : EnvMap) (k : Nat)
    (api : ApiConfig) (fp : String) (info : DocInfo) :
    (test_one_api o env k api fp info).file_used = fp := by
  unfold test_one_api
  split
  · rfl
  · split
    · rfl
    · rfl

/-! Lemmas about the variable-substitution scanner (C6). -/

/-- The scanner maps the empty text to the empty text at any fuel. -/
theorem rv_nil (env : EnvMap) (fuel : Nat) : replaceVarsFuel env fuel [] = [] := by
  cases fuel <;> rfl

/-- Unfolding step at a character that cannot open a placeholder. -/
theorem rv_cons_ne (env : EnvMap) (f : Nat) (c : Char) (l : List Char) (hc : c ≠ '\x7b') :
    replaceVarsFuel env (f + 1) (c :: l) = c :: replaceVarsFuel env f l := by
  simp [replaceVarsFuel, hc]

/-- Taking while `notRBrace` stops exactly at the first closing brace. -/
theorem takeWhile_notRB (n : List Char) (hb : '\x7d' ∉ n) (rest : List Char) :
    (n ++ '\x7d' :: rest).takeWhile notRBrace = n := by
  induction n with
  | nil => simp [List.takeWhile, notRBrace]
  | cons c t ih =>
      have hc : c ≠ '\x7d' := fun h => hb (h ▸ List.mem_cons_self c t)
      have ht : '\x7d' ∉ t := fun h => hb (List.mem_cons_of_mem c h)
      simp only [List.cons_append, List.takeWhile_cons]
      simp [notRBrace, hc, ih ht]

/-- Dropping while `notRBrace` drops exactly up to the first closing brace. -/
theorem dropWhile_notRB (n : List Char) (hb : '\x7d' ∉ n) (rest : List Char) :
    (n ++ '\x7d' :: rest).dropWhile notRBrace = '\x7d' :: rest := by
  induction n with
  | nil => simp [List.dropWhile, notRBrace]
  | cons c t ih =>
      have hc : c ≠ '\x7d' := fun h => hb (h ▸ List.mem_cons_self c t)
      have ht : '\x7d' ∉ t := fun h => hb (List.mem_cons_of_mem c h)
      simp only [List.cons_append, List.dropWhile_cons]
      simp [notRBrace, hc, ih ht]

/-- Unfolding step at a well-formed placeholder: the scanner consumes
`\x7b\x7bname\x7d\x7d`, substitutes (or keeps the matched text), and resumes after
it. -/
theorem rv_var (env : EnvMap) (f : Nat) (n : List Char) (rest : List Char)
    (hn : n ≠ []) (hb : '\x7d' ∉ n) :
    replaceVarsFuel env (f + 1) ('\x7b' :: '\x7b' :: (n ++ '\x7d' :: '\x7d' :: rest)) =
      (match lookupEnv env (String.mk n) with
       | some v => v.data
       | none => '\x7b' :: '\x7b' :: (n ++ ['\x7d', '\x7d'])) ++ replaceVarsFuel env f rest := by
  have h1 : (n ++ '\x7d' :: '\x7d' :: rest).takeWhile notRBrace = n := takeWhile_notRB n hb _
  have h2 : (n ++ '\x7d' :: '\x7d' :: rest).dropWhile notRBrace = '\x7d' :: '\x7d' :: rest :=
    dropWhile_notRB n hb _
  simp [replaceVarsFuel, h1, h2, hn, startsWithRR]

/-- Characters of a literal that passed `TPiece.wf` never open a
placeholder; the scanner copies the whole chunk and continues with the
corresponding fuel. -/
theorem rv_append_lit (env : EnvMap) (s : List Char) (h : '\x7b' ∉ s) :
    ∀ (rest : List Char) (fuel : Nat), s.length + rest.length ≤ fuel →
    replaceVarsFuel env fuel (s ++ rest) = s ++ replaceVarsFuel env (fuel - s.length) rest := by
  induction s with
  | nil => intro rest fuel _; simp
  | cons c t ih =>
      intro rest fuel hlen
      cases fuel with
      | zero => simp at hlen
      | succ f =>
          have hc : c ≠ '\x7b' := fun hcc => h (hcc ▸ List.mem_cons_self c t)
          have ht : '\x7b' ∉ t := fun htt => h (List.mem_cons_of_mem c htt)
          have hlen' : t.length + 1 + rest.length ≤ f + 1 := hlen
          have hl : t.length + rest.length ≤ f := by omega
          have hfuel : (f + 1) - (c :: t).length = f - t.length := by
            have hcl : (c :: t).length = t.length + 1 := rfl
            omega
          simp only [List.cons_append, rv_cons_ne env f c (t ++ rest) hc, ih ht rest f hl,
            hfuel]

/-- Core of C6: on any well-formed template, the scanner implements the
spec's substitution semantics, at any sufficient fuel. -/
theorem rv_renderT (env : EnvMap) :
    ∀ (ts : List TPiece), (∀ p ∈ ts, p.wf) →
    ∀ fuel, (renderT ts).length ≤ fuel →
    replaceVarsFuel env fuel (renderT ts) = substT env ts := by
  intro ts
  induction ts with
  | nil => intro _ fuel _; exact rv_nil env fuel
  | cons p ts ih =>
      intro hwf fuel hlen
      have hwfp : p.wf := hwf p (List.mem_cons_self p ts)
      have hwfts : ∀ q ∈ ts, q.wf := fun q hq => hwf q (List.mem_cons_of_mem p hq)
      cases p with
      | lit s =>
          obtain ⟨hlb, _⟩ := hwfp
          have hlen' : s.length + (renderT ts).length ≤ fuel := by
            simpa [renderT, List.length_append] using hlen
          simp only [renderT, substT]
          rw [rv_append_lit env s hlb (renderT ts) fuel hlen']
          congr 1
          exact ih hwfts (fuel - s.length) (by omega)
      | var n =>
          obtain ⟨hne, _, hrb⟩ := hwfp
          have hlen' : (renderT ts).length + 4 + n.length ≤ fuel := by
            simp only [renderT, List.length_cons, List.length_append] at hlen
            omega
          simp only [renderT, substT]
          cases fuel with
          | zero => omega
          | succ f =>
              rw [rv_var env f n (renderT ts) hne hrb]
              congr 1
              exact ih hwfts f (by omega)

/-- C6: for every template and Environment, variable resolution replaces each
`\x7b\x7bname\x7d\x7d` placeholder by `Environment[name]` verbatim when the name is
bound and leaves the literal placeholder text unchanged when it is absent
(stated over well-formed templates: brace-free literal chunks and non-empty
brace-free names); in particular `"\x7b\x7bbase\x7d\x7d/upload"` with
`\x7bbase: "http://x"\x7d` resolves to `"http://x/upload"` and
`"\x7b\x7bmissing\x7d\x7d"` with an empty Environment resolves to itself. -/
theorem c6_variable_resolution :
    (∀ (env : EnvMap) (ts : List TPiece), (∀ p ∈ ts, p.wf) →
      replace_variables env (String.mk (renderT ts)) = String.mk (substT env ts)) ∧
    replace_variables [("base", "http://x")] "\x7b\x7bbase\x7d\x7d/upload" = "http://x/upload" ∧
    replace_variables [] "\x7b\x7bmissing\x7d\x7d" = "\x7b\x7bmissing\x7d\x7d" := by
  refine ⟨?_, by decide, by decide⟩
  intro env ts hwf
  show String.mk (replaceVarsFuel env (renderT ts).length (renderT ts)) = _
  rw [rv_renderT env ts hwf (renderT ts).length (le_refl _)]

/-- Witness for C6: the general theorem applied to the template
`\x7b\x7bbase\x7d\x7d/upload` of the spec's round-trip example. -/
theorem c6_witness :
    replace_variables [("base", "http://x")]
        (String.mk (renderT [TPiece.var "base".data, TPiece.lit "/upload".data])) =
      String.mk (substT [("base", "http://x")]
        [TPiece.var "base".data, TPiece.lit "/upload".data]) :=
  c6_variable_resolution.1 [("base", "http://x")]
    [TPiece.var "base".data, TPiece.lit "/upload".data] (by decide)

/-! Lemmas about the substring test and the document search (C5). -/

/-- The boolean `List.isPrefixOf` agrees with the existential description. -/
theorem isPrefixOf_iff_exists (n : List Char) :
    ∀ h, n.isPrefixOf h = true ↔ ∃ t, h = n ++ t := by
  induction n with
  | nil => intro h; simp [List.isPrefixOf]
  | cons c cs ih =>
      intro h
      cases h with
      | nil =>
          simp [List.isPrefixOf]
      | cons d ds =>
          simp only [List.isPrefixOf, Bool.and_eq_true, beq_iff_eq, ih ds]
          constructor
          · rintro ⟨rfl, t, rfl⟩
            exact ⟨t, rfl⟩
          · rintro ⟨t, ht⟩
            injection ht with h1 h2
            exact ⟨h1.symm, t, h2⟩

/-- The scanning substring test agrees with the substring relation. -/
theorem containsSubL_iff (n : List Char) :
    ∀ h, containsSubL n h = true ↔ containsSubP n h := by
  intro h
  induction h with
  | nil =>
      simp only [containsSubL, containsSubP, List.isEmpty_iff]
      constructor
      · rintro rfl
        exact ⟨[], [], rfl⟩
      · rintro ⟨s, t, hst⟩
        rcases List.append_eq_nil.mp hst.symm with ⟨h1, h2⟩
        exact (List.append_eq_nil.mp h1).2
  | cons d ds ihh =>
      simp only [containsSubL, Bool.or_eq_true, isPrefixOf_iff_exists, ihh,
        containsSubP]
      constructor
      · rintro (⟨t, ht⟩ | ⟨s, t, hst⟩)
        · exact ⟨[], t, by simpa using ht⟩
        · exact ⟨d :: s, t, by simp [hst]⟩
      · rintro ⟨s, t, hst⟩
        cases s with
        | nil => exact Or.inl ⟨t, by simpa using hst⟩
        | cons e es =>
            injection hst with h1 h2
            exact Or.inr ⟨es, t, h2⟩

/-- The search loop of `_find_document_by_type` is first-match search in
insertion order. -/
theorem find_document_loop_eq_find? (dl : String) :
    ∀ m : DocMap, find_document_loop dl m =
      (m.find? (fun e =>
        pyIn dl (pyLower (e.2.document_type.getD "")) ||
        pyIn (pyLower (e.2.document_type.getD "")) dl)).map (fun e => e.1) := by
  intro m
  induction m with
  | nil => rfl
  | cons e rest ih =>
      rcases e with ⟨file_path, info⟩
      simp only [find_document_loop, List.find?]
      cases hcond : (pyIn dl (pyLower (info.document_type.getD "")) ||
          pyIn (pyLower (info.document_type.getD "")) dl) with
      | true => simp [hcond]
      | false => simp [hcond, ih]

/-- C5: for every required document type, the retry-document search returns
the first Document Store entry, in insertion order, whose lowercased
classified type and the lowercased required type are in a substring relation
in either direction, and returns no document when no entry matches.  (The
search does not consult the Usage Set; see C1.) -/
theorem c5_find_document_characterization (doc_map : DocMap) (doc_type : String) :
    (find_document_by_type doc_map doc_type =
      (doc_map.find? (fun e => typeMatchesB doc_type e.2)).map (fun e => e.1)) ∧
    (∀ info, typeMatchesB doc_type info = true ↔ typeMatches doc_type info) ∧
    (find_document_by_type doc_map doc_type = none ↔
      ∀ e ∈ doc_map, ¬ typeMatches doc_type e.2) := by
  have h1 : find_document_by_type doc_map doc_type =
      (doc_map.find? (fun e => typeMatchesB doc_type e.2)).map (fun e => e.1) := by
    unfold find_document_by_type typeMatchesB
    exact find_document_loop_eq_find? (pyLower doc_type) doc_map
  have h2 : ∀ info, typeMatchesB doc_type info = true ↔ typeMatches doc_type info := by
    intro info
    simp [typeMatchesB, typeMatches, pyIn, containsSubL_iff]
  refine ⟨h1, h2, ?_⟩
  rw [h1]
  simp only [Option.map_eq_none', List.find?_eq_none]
  constructor
  · intro hnone e he
    rw [← h2 e.2]
    simp [hnone e he]
  · intro hall e he
    have := (h2 e.2).not.mpr (hall e he)
    simpa using this

/-- C8: re-running `classify_documents` over the same document files with a
warm cache (every walked path already a key of the loaded cache) returns the
cache contents unchanged and issues zero classification-oracle calls. -/
theorem c8_classification_idempotent {α : Type} (failed : α)
    (cache : List (String × α)) (walked : List String) (oracle : String → Option α)
    (hwarm : ∀ f ∈ walked, cache.any (fun e => e.1 == f) = true) :
    classify_documents failed cache walked oracle = (cache, 0) := by
  unfold classify_documents
  have hnew : (walked.filter
        (fun f => !(".".data.isPrefixOf (basename f).data) &&
          !(".md".data.isSuffixOf f.data))).filter
      (fun f => !(cache.any (fun e => e.1 == f))) = [] := by
    rw [List.filter_eq_nil_iff]
    intro f hf
    have hfw : f ∈ walked := (List.mem_filter.mp hf).1
    simp [hwarm f hfw]
  simp only [hnew, List.foldl_nil, List.length_nil]

/-- Witness for C8: a one-document store whose only file is already cached;
the run returns the cache and makes zero oracle calls. -/
theorem c8_witness :
    classify_documents "failed" [("docs/a.pdf", "invoice")] ["docs/a.pdf"]
      (fun _ => some "passport") = ([("docs/a.pdf", "invoice")], 0) :=
  c8_classification_idempotent "failed" [("docs/a.pdf", "invoice")] ["docs/a.pdf"]
    (fun _ => some "passport") (by decide)

/-- C9: an endpoint definition whose request specification has no `method`
field is dispatched with the HTTP method `POST` (`request_data.get("method",
"POST")`). -/
theorem c9_default_method (env : EnvMap) (fs : String → Except String (List Nat))
    (gm : String → Option String) (api : ApiConfig) (fp : String)
    (hm : api.request.method = none) :
    ∀ r, build_request env fs gm api fp = .ok r → r.1 = "POST" := by
  intro r hr
  simp only [build_request, hm, Option.getD_none] at hr
  split at hr
  · rcases hfold : ((api.request.body.map (fun b => b.formdata)).getD []).foldlM
        (fun (acc : List (Option String × FormValue)) field =>
          if field.type = some "file" then do
            let file_content ← fs fp
            let mime_type :=
              match gm fp with
              | some m => if m = "" then mimeFallback (splitextExtLower fp) else m
              | none => mimeFallback (splitextExtLower fp)
            pure (acc ++ [(field.key, FormValue.file (basename fp) file_content mime_type)])
          else
            pure (acc ++ [(field.key, FormValue.text (replace_variables env (field.value.getD "")))]))
        [] with e | fields
    · rw [hfold] at hr
      exact absurd hr (by simp [Bind.bind, Except.bind])
    · rw [hfold] at hr
      have h' := Except.ok.inj hr
      rw [← h']
  · split at hr
    · rcases hfs : fs fp with e | content
      · rw [hfs] at hr
        exact absurd hr (by simp [Bind.bind, Except.bind])
      · rw [hfs] at hr
        have h' := Except.ok.inj hr
        rw [← h']
    · have h' := Except.ok.inj hr
      rw [← h']

/-- Witness for C9: the endpoint `api9` (no `method` key) builds a concrete
request whose method is `POST`. -/
theorem c9_witness :
    (("POST", "http://h/upload", ([] : List (String × String)),
      (⟨some [(some "file", FormValue.file "f.pdf" [55] "application/pdf")], none⟩ :
        BodyData)) : String × String × List (String × String) × BodyData).1 = "POST" :=
  c9_default_method [] fsOne (fun _ => none) api9 "f.pdf" rfl
    ("POST", "http://h/upload", [],
      ⟨some [(some "file", FormValue.file "f.pdf" [55] "application/pdf")], none⟩) rfl

/-- C4: an attempt succeeds iff the transport call completes with status
200, 201 or 204; a failing build (file I/O) or transport call produces the
except-clause failure record carrying the exception text; a completed call
with any other status produces a failure record carrying the status code and
response body.  `test_one_api` is a total function, so no outcome aborts the
run. -/
theorem c4_outcome_classification (o : Oracles) (env : EnvMap) (k : Nat)
    (api : ApiConfig) (fp : String) (info : DocInfo) :
    ((test_one_api o env k api fp info).success = true ↔
      ∃ b resp, build_request env o.fs o.guessMime api fp = .ok b ∧
        o.transport k (b.1, b.2.1, b.2.2.1, payloadOf b.2.2.2) = .ok resp ∧
        ([200, 201, 204] : List Nat).contains resp.status_code = true) ∧
    (∀ e, build_request env o.fs o.guessMime api fp = .error e →
      test_one_api o env k api fp info = .errored (api.name.getD "unnamed") fp e) ∧
    (∀ b e, build_request env o.fs o.guessMime api fp = .ok b →
      o.transport k (b.1, b.2.1, b.2.2.1, payloadOf b.2.2.2) = .error e →
      test_one_api o env k api fp info = .errored (api.name.getD "unnamed") fp e) ∧
    (∀ b resp, build_request env o.fs o.guessMime api fp = .ok b →
      o.transport k (b.1, b.2.1, b.2.2.1, payloadOf b.2.2.2) = .ok resp →
      test_one_api o env k api fp info = .completed (api.name.getD "unnamed") b.1 b.2.1 fp
        info.document_type (([200, 201, 204] : List Nat).contains resp.status_code)
        resp.status_code
        (if ([200, 201, 204] : List Nat).contains resp.status_code then "" else resp.text)
        resp.headers) := by
  rcases hb : build_request env o.fs o.guessMime api fp with e | b
  · refine ⟨?_, ?_, ?_, ?_⟩
    · simp only [test_one_api, hb, AttemptResult.success]
      constructor
      · intro h; exact absurd h (by simp)
      · rintro ⟨b, resp, hb', _⟩; exact absurd hb' (by simp)
    · intro e' he'
      injection he' with h
      simp [test_one_api, hb, h]
    · intro b' e' hb' _
      exact absurd hb' (by simp)
    · intro b' resp hb' _
      exact absurd hb' (by simp)
  · rcases b with ⟨m, u, hds, bd⟩
    rcases ht : o.transport k (m, u, hds, payloadOf bd) with e | resp
    · refine ⟨?_, ?_, ?_, ?_⟩
      · simp only [test_one_api, hb, ht, AttemptResult.success]
        constructor
        · intro h; exact absurd h (by simp)
        · rintro ⟨b', resp', hb', ht', _⟩
          have hbb := Except.ok.inj hb'
          subst hbb
          have ht'' : o.transport k (m, u, hds, payloadOf bd) = .ok resp' := ht'
          exact absurd (ht.symm.trans ht'') (by simp)
      · intro e' he'
        exact absurd he' (by simp)
      · intro b' e' hb' ht'
        have hbb := Except.ok.inj hb'
        subst hbb
        have ht'' : o.transport k (m, u, hds, payloadOf bd) = .error e' := ht'
        have he := Except.error.inj (ht.symm.trans ht'')
        simp [test_one_api, hb, ht, he]
      · intro b' resp' hb' ht'
        have hbb := Except.ok.inj hb'
        subst hbb
        have ht'' : o.transport k (m, u, hds, payloadOf bd) = .ok resp' := ht'
        exact absurd (ht.symm.trans ht'') (by simp)
    · refine ⟨?_, ?_, ?_, ?_⟩
      · simp only [test_one_api, hb, ht, AttemptResult.success]
        constructor
        · intro h
          exact ⟨(m, u, hds, bd), resp, rfl, ht, h⟩
        · rintro ⟨b', resp', hb', ht', hs'⟩
          have hbb := Except.ok.inj hb'
          subst hbb
          have ht'' : o.transport k (m, u, hds, payloadOf bd) = .ok resp' := ht'
          have hrr := Except.ok.inj (ht.symm.trans ht'')
          rw [← hrr] at hs'
          exact hs'
      · intro e' he'
        exact absurd he' (by simp)
      · intro b' e' hb' ht'
        have hbb := Except.ok.inj hb'
        subst hbb
        have ht'' : o.transport k (m, u, hds, payloadOf bd) = .error e' := ht'
        exact absurd (ht.symm.trans ht'') (by simp)
      · intro b' resp' hb' ht'
        have hbb := Except.ok.inj hb'
        subst hbb
        have ht'' : o.transport k (m, u, hds, payloadOf bd) = .ok resp' := ht'
        have hrr := Except.ok.inj (ht.symm.trans ht'')
        subst hrr
        simp [test_one_api, hb, ht]

/-- Case analysis of one loop iteration of `test_apis`: either the
candidate pool is empty and the state is unchanged, or exactly one result is
appended, whose base record is the initial attempt on the picked document;
at most two transport calls and at most one diagnosis call are consumed, and
the Usage Set either stays or grows by one `setAdd`. -/
theorem test_apis_step_shape (o : Oracles) (env : EnvMap) (doc_map : DocMap)
    (st : RunState) (api : ApiConfig) :
    (available_docs doc_map st.used = [] ∧ test_apis_step o env doc_map st api = st) ∨
    (available_docs doc_map st.used ≠ [] ∧
     ∃ (rs : Bool) (cd : Option String) (tinc dinc : Nat) (u : List String),
       1 ≤ tinc ∧ tinc ≤ 2 ∧ dinc ≤ 1 ∧
       (u = st.used ∨ ∃ x, u = setAdd st.used x) ∧
       test_apis_step o env doc_map st api =
         { results := st.results ++ [⟨test_one_api o env st.tcount api
              (o.pick st.pcount ((available_docs doc_map st.used).map (fun e => e.1)))
              ((lookupD doc_map (o.pick st.pcount
                ((available_docs doc_map st.used).map (fun e => e.1)))).getD ⟨none⟩), rs, cd⟩]
           used := u
           tcount := st.tcount + tinc
           dcount := st.dcount + dinc
           pcount := st.pcount + 1 }) := by
  by_cases hav : available_docs doc_map st.used = []
  · exact Or.inl ⟨hav, by simp [test_apis_step, hav]⟩
  · refine Or.inr ⟨hav, ?_⟩
    simp only [test_apis_step, if_neg hav]
    by_cases hs : (test_one_api o env st.tcount api
        (o.pick st.pcount ((available_docs doc_map st.used).map (fun e => e.1)))
        ((lookupD doc_map (o.pick st.pcount
          ((available_docs doc_map st.used).map (fun e => e.1)))).getD ⟨none⟩)).success = true
    · refine ⟨false, none, 1, 0,
        setAdd st.used (o.pick st.pcount ((available_docs doc_map st.used).map (fun e => e.1))),
        by omega, by omega, by omega, Or.inr ⟨_, rfl⟩, ?_⟩
      rw [if_pos hs]
      rfl
    · rw [if_neg hs]
      cases hd : ask_gemini_what_went_wrong o.diag st.dcount
          (test_one_api o env st.tcount api
            (o.pick st.pcount ((available_docs doc_map st.used).map (fun e => e.1)))
            ((lookupD doc_map (o.pick st.pcount
              ((available_docs doc_map st.used).map (fun e => e.1)))).getD ⟨none⟩)) with
      | none => exact ⟨false, none, 1, 1, st.used, by omega, by omega, by omega, Or.inl rfl, rfl⟩
      | some t =>
          dsimp only
          by_cases hte : t ≠ ""
          · rw [if_pos hte]
            cases hf : find_document_by_type doc_map t with
            | none => exact ⟨false, none, 1, 1, st.used, by omega, by omega, by omega, Or.inl rfl, rfl⟩
            | some m =>
                dsimp only
                by_cases hrs : (test_one_api o env (st.tcount + 1) api m
                    ((lookupD doc_map m).getD ⟨none⟩)).success = true
                · rw [if_pos hrs]
                  exact ⟨true, some m, 2, 1, setAdd st.used m, by omega, by omega, by omega,
                    Or.inr ⟨_, rfl⟩, rfl⟩
                · rw [if_neg hrs]
                  exact ⟨false, none, 2, 1, st.used, by omega, by omega, by omega, Or.inl rfl, rfl⟩
          · rw [if_neg hte]
            exact ⟨false, none, 1, 1, st.used, by omega, by omega, by omega, Or.inl rfl, rfl⟩

/-- C7: per endpoint, at most one retry dispatch is performed (at most two
transport calls are consumed in one loop iteration) and at most two result
records could be appended — in fact at most one is. -/
theorem c7_retry_bound (o : Oracles) (env : EnvMap) (doc_map : DocMap)
    (st : RunState) (api : ApiConfig) :
    (test_apis_step o env doc_map st api).results.length ≤ st.results.length + 2 ∧
    (test_apis_step o env doc_map st api).tcount ≤ st.tcount + 2 := by
  rcases test_apis_step_shape o env doc_map st api with ⟨_, heq⟩ |
    ⟨_, rs, cd, tinc, dinc, u, h1, h2, _, _, heq⟩
  · rw [heq]
    exact ⟨by omega, by omega⟩
  · rw [heq]
    refine ⟨?_, ?_⟩
    · simp only [List.length_append, List.length_cons, List.length_nil]
      omega
    · simp only
      omega

/-- One loop iteration preserves the set property of `used_documents`. -/
theorem test_apis_step_used_nodup (o : Oracles) (env : EnvMap) (doc_map : DocMap)
    (st : RunState) (api : ApiConfig) (h : st.used.Nodup) :
    (test_apis_step o env doc_map st api).used.Nodup := by
  rcases test_apis_step_shape o env doc_map st api with ⟨_, heq⟩ |
    ⟨_, rs, cd, tinc, dinc, u, _, _, _, hu, heq⟩
  · rw [heq]; exact h
  · rw [heq]
    dsimp only
    rcases hu with hu1 | ⟨x, hu1⟩
    · rw [hu1]; exact h
    · rw [hu1]; exact setAdd_nodup _ _ h

/-- Any result record appended by one loop iteration records as `file_used`
a document picked from the candidate pool, hence one not in the Usage Set at
the start of the iteration (when the picker respects membership). -/
theorem test_apis_step_fresh (o : Oracles) (env : EnvMap) (doc_map : DocMap)
    (st : RunState) (api : ApiConfig) (r : TestResult)
    (hpick : ∀ (n : Nat) (l : List String), l ≠ [] → o.pick n l ∈ l)
    (happ : (test_apis_step o env doc_map st api).results = st.results ++ [r]) :
    r.base.file_used ∉ st.used := by
  rcases test_apis_step_shape o env doc_map st api with ⟨_, heq⟩ |
    ⟨hav, rs, cd, tinc, dinc, u, _, _, _, _, heq⟩
  · rw [heq] at happ
    have := congrArg List.length happ
    simp at this
  · rw [heq] at happ
    dsimp only at happ
    simp only [List.append_cancel_left_eq, List.cons.injEq, and_true] at happ
    have hrbase : r.base = test_one_api o env st.tcount api
        (o.pick st.pcount ((available_docs doc_map st.used).map (fun e => e.1)))
        ((lookupD doc_map (o.pick st.pcount
          ((available_docs doc_map st.used).map (fun e => e.1)))).getD ⟨none⟩) := by
      rw [← happ]
    have hfu : r.base.file_used =
        o.pick st.pcount ((available_docs doc_map st.used).map (fun e => e.1)) := by
      rw [hrbase, test_one_api_file_used]
    have hne : (available_docs doc_map st.used).map (fun e => e.1) ≠ [] := by
      intro h0
      exact hav (List.map_eq_nil_iff.mp h0)
    have hmem := hpick st.pcount _ hne
    obtain ⟨e, he, heq1⟩ := List.mem_map.mp hmem
    have hfilter := (List.mem_filter.mp he).2
    intro hcontra
    rw [hfu, ← heq1] at hcontra
    simp only [Bool.not_eq_eq_eq_not, Bool.not_true] at hfilter
    have : e.1 ∈ st.used := hcontra
    simp [this] at hfilter

/-- C1 (amended): for every run, a document path appears in the Usage Set at
most once (the set stays duplicate-free), and every recorded attempt's
*initial* document was picked from the pool of paths not yet in the Usage
Set; however — unlike the original claim — the document selected for a retry
is found without consulting the Usage Set and may already be in it (its
successful reuse is then recorded, and `setAdd` leaves the set unchanged).
The pick-oracle hypothesis says that `random.choice` returns an element of
the list it is given. -/
theorem c1_no_double_use_amended :
    (∀ (o : Oracles) (env : EnvMap) (doc_map : DocMap) (apis : List ApiConfig),
      (test_apis o env doc_map apis).used.Nodup) ∧
    (∀ (o : Oracles) (env : EnvMap) (doc_map : DocMap) (st : RunState) (api : ApiConfig)
       (r : TestResult),
      (∀ (n : Nat) (l : List String), l ≠ [] → o.pick n l ∈ l) →
      (test_apis_step o env doc_map st api).results = st.results ++ [r] →
      r.base.file_used ∉ st.used) := by
  constructor
  · intro o env doc_map apis
    unfold test_apis
    have gen : ∀ (l : List ApiConfig) (st : RunState), st.used.Nodup →
        (l.foldl (test_apis_step o env doc_map) st).used.Nodup := by
      intro l
      induction l with
      | nil => intro st h; exact h
      | cons a t ih =>
          intro st h
          exact ih _ (test_apis_step_used_nodup o env doc_map st a h)
    exact gen apis initState List.nodup_nil
  · exact test_apis_step_fresh

/-- Witness for C1 (amended): a concrete one-endpoint run has a
duplicate-free Usage Set, and with document B already consumed, the recorded
result of the next endpoint used the fresh document A. -/
theorem c1_witness :
    (test_apis oC1 [] dmC1 [apiU "e1"]).used.Nodup ∧
    (⟨AttemptResult.completed "e1" "POST" "http://h/upload" "A" (some "passport")
        true 200 "" [], false, none⟩ : TestResult).base.file_used ∉ (["B"] : List String) :=
  ⟨c1_no_double_use_amended.1 oC1 [] dmC1 [apiU "e1"],
   c1_no_double_use_amended.2 oC1 [] dmC1 ⟨[], ["B"], 0, 0, 0⟩ (apiU "e1") _
     (fun _ l hl => headD_mem l hl) (by decide)⟩

/-- Counterexample to C1 as stated: in the concrete two-endpoint run under
`oC1`, endpoint `e1` succeeds with document `A` (so `A` enters the Usage
Set), endpoint `e2`'s initial attempt with `B` fails, the diagnosis requires
a passport, and the retry search returns `A` — a path already consumed by
`e1` — whose successful reuse is recorded (`correct_document = some "A"`).
This refutes both "every recorded successful attempt used a document path
not already consumed" and "the document selected for a retry is one whose
path is not already in the Usage Set". -/
theorem c1_counterexample :
    ("A" ∈ (test_apis oC1 [] dmC1 [apiU "e1"]).used) ∧
    ((test_apis oC1 [] dmC1 [apiU "e1", apiU "e2"]).results.map
        (fun r => (r.retry_success, r.correct_document))) =
      [(false, none), (true, some "A")] ∧
    ((test_apis oC1 [] dmC1 [apiU "e1", apiU "e2"]).results.map
        (fun r => (r.base.success, r.base.file_used))) = [(true, "A"), (false, "B")] ∧
    (test_apis oC1 [] dmC1 [apiU "e1", apiU "e2"]).used = ["A"] := by
  decide

/-- C2 (amended): when an initial attempt fails, the diagnosis oracle
returns a non-empty required type, a matching document exists and the retry
attempt with it succeeds, the engine dispatches exactly one retry (two
transport calls in total) and records exactly ONE Attempt Result for the
endpoint: the original one, annotated with `retry_success = True` and
`correct_document` set to the matched document's path (the retry's own
record is not appended), and the retry document's path is added to the
Usage Set.  The hypotheses name the intermediate values the loop computes. -/
theorem c2_bounded_retry_amended (o : Oracles) (env : EnvMap) (doc_map : DocMap)
    (st : RunState) (api : ApiConfig) (rf : String) (r retry : AttemptResult)
    (t m : String)
    (hav : available_docs doc_map st.used ≠ [])
    (hrf : rf = o.pick st.pcount ((available_docs doc_map st.used).map (fun e => e.1)))
    (hr : r = test_one_api o env st.tcount api rf ((lookupD doc_map rf).getD ⟨none⟩))
    (hfail : r.success = false)
    (hdiag : ask_gemini_what_went_wrong o.diag st.dcount r = some t)
    (ht : t ≠ "")
    (hfind : find_document_by_type doc_map t = some m)
    (hretry : retry = test_one_api o env (st.tcount + 1) api m ((lookupD doc_map m).getD ⟨none⟩))
    (hrsucc : retry.success = true) :
    test_apis_step o env doc_map st api =
      { results := st.results ++ [⟨r, true, some m⟩]
        used := setAdd st.used m
        tcount := st.tcount + 2
        dcount := st.dcount + 1
        pcount := st.pcount + 1 } := by
  subst hrf hr hretry
  simp only [test_apis_step, if_neg hav, hfail, hdiag, hfind, hrsucc, ht]
  simp [ht]

/-- Witness for C2 (amended): the spec's §8 scenario under `oC2` — invoice
attempt fails with 422, the oracle requires a passport, `pass.pdf` matches,
the retry succeeds with 201 — yields the annotated single record and puts
`pass.pdf` into the Usage Set. -/
theorem c2_witness :
    test_apis_step oC2 [] dmC2 initState (apiU "e1") =
      { results := [⟨AttemptResult.completed "e1" "POST" "http://h/upload" "inv.pdf"
          (some "invoice") false 422 "wrong doc type" [], true, some "pass.pdf"⟩]
        used := ["pass.pdf"]
        tcount := 2
        dcount := 1
        pcount := 1 } :=
  c2_bounded_retry_amended oC2 [] dmC2 initState (apiU "e1") "inv.pdf" _ _
    "passport" "pass.pdf" (by decide) rfl rfl (by decide) (by decide) (by decide)
    (by decide) rfl (by decide)

/-- Counterexample to C2 as stated: in the very scenario the claim
describes (initial failure, diagnosis `passport`, matching unused document
`pass.pdf`, retry success) the run records exactly ONE Attempt Result for
the endpoint, not two: the retry is only an annotation on the original
record. -/
theorem c2_counterexample :
    (test_apis oC2 [] dmC2 [apiU "e1"]).results.length = 1 ∧
    ((test_apis oC2 [] dmC2 [apiU "e1"]).results.map
        (fun r => (r.retry_success, r.correct_document))) = [(true, some "pass.pdf")] ∧
    (test_apis oC2 [] dmC2 [apiU "e1"]).used = ["pass.pdf"] ∧
    (test_apis oC2 [] dmC2 [apiU "e1"]).tcount = 2 := by
  decide

/-- The regex search finds the span from the first opening brace to the last
closing brace: on a text decomposed as `pre ++ '\x7b' :: mid ++ '\x7d' :: post`
with no `\x7b` in `pre` and no `\x7d` in `post`, the match is exactly
`'\x7b' :: mid ++ ['\x7d']`. -/
theorem reSearchGreedy_found (pre mid post : List Char)
    (hpre : '\x7b' ∉ pre) (hpost : '\x7d' ∉ post) :
    reSearchGreedy (pre ++ '\x7b' :: (mid ++ '\x7d' :: post)) =
      some ('\x7b' :: (mid ++ ['\x7d'])) := by
  induction pre with
  | nil =>
      simp only [List.nil_append, reSearchGreedy]
      rw [if_pos]
      · congr 1
        unfold upToLastRB
        have hrev : (mid ++ '\x7d' :: post).reverse = post.reverse ++ '\x7d' :: mid.reverse := by
          simp
        rw [hrev, dropWhile_notRB post.reverse (by simpa using hpost) mid.reverse]
        simp
      · have : '\x7d' ∈ mid ++ '\x7d' :: post := by simp
        simp [this]
  | cons c t ih =>
      have hc : c ≠ '\x7b' := fun hcc => hpre (hcc ▸ List.mem_cons_self c t)
      have ht : '\x7b' ∉ t := fun htt => hpre (List.mem_cons_of_mem c htt)
      simp only [List.cons_append, reSearchGreedy]
      rw [if_neg]
      · exact ih ht
      · simp [hc]

/-- Whenever some opening brace is followed (anywhere later) by a closing
brace, the regex search succeeds. -/
theorem reSearchGreedy_ne_none (pre mid post : List Char) :
    reSearchGreedy (pre ++ '\x7b' :: (mid ++ '\x7d' :: post)) ≠ none := by
  induction pre with
  | nil =>
      simp only [List.nil_append, reSearchGreedy]
      rw [if_pos]
      · simp
      · have : '\x7d' ∈ mid ++ '\x7d' :: post := by simp
        simp [this]
  | cons c t ih =>
      simp only [List.cons_append, reSearchGreedy, List.append_eq]
      by_cases hcond : (decide (c = '\x7b') && (t ++ '\x7b' :: (mid ++ '\x7d' :: post)).contains '\x7d') = true
      · rw [if_pos hcond]
        simp
      · rw [if_neg hcond]
        exact ih

/-- C3 (amended): the diagnosis extraction takes the substring of the
(stripped) oracle response from its FIRST `\x7b` to its LAST `\x7d` — not the
first well-formed JSON object — and parses that whole substring with
`json.loads`, returning its `required_document_type` on success and no
diagnosis on a parse failure or when no such substring exists; and when the
diagnosis is null the engine records exactly one Attempt Result for the
endpoint and performs no retry dispatch (a single transport call). -/
theorem c3_extraction_amended :
    (∀ (pre mid post : List Char), '\x7b' ∉ pre → '\x7d' ∉ post →
      reSearchGreedy (pre ++ '\x7b' :: (mid ++ '\x7d' :: post)) =
        some ('\x7b' :: (mid ++ ['\x7d']))) ∧
    (∀ (pre mid post : List Char),
      reSearchGreedy (pre ++ '\x7b' :: (mid ++ '\x7d' :: post)) ≠ none) ∧
    (∀ (o : Oracles) (env : EnvMap) (doc_map : DocMap) (st : RunState)
       (api : ApiConfig) (rf : String) (r : AttemptResult),
      available_docs doc_map st.used ≠ [] →
      rf = o.pick st.pcount ((available_docs doc_map st.used).map (fun e => e.1)) →
      r = test_one_api o env st.tcount api rf ((lookupD doc_map rf).getD ⟨none⟩) →
      r.success = false →
      ask_gemini_what_went_wrong o.diag st.dcount r = none →
      test_apis_step o env doc_map st api =
        { results := st.results ++ [⟨r, false, none⟩]
          used := st.used
          tcount := st.tcount + 1
          dcount := st.dcount + 1
          pcount := st.pcount + 1 }) := by
  refine ⟨reSearchGreedy_found, reSearchGreedy_ne_none, ?_⟩
  intro o env doc_map st api rf r hav hrf hr hfail hdiag
  subst hrf hr
  simp only [test_apis_step, if_neg hav, hfail, hdiag]
  simp

/-- Witness for C3 (amended): the greedy span on a concrete text, and a
concrete null-diagnosis endpoint run under `oC3` recording one result with a
single transport call. -/
theorem c3_witness :
    reSearchGreedy ("x ".data ++ '\x7b' :: ("a".data ++ '\x7d' :: " y".data)) =
      some ('\x7b' :: ("a".data ++ ['\x7d'])) ∧
    test_apis_step oC3 [] dmC2 initState (apiU "e3") =
      { results := [⟨AttemptResult.completed "e3" "POST" "http://h/upload" "inv.pdf"
          (some "invoice") false 500 "boom" [], false, none⟩]
        used := []
        tcount := 1
        dcount := 1
        pcount := 1 } :=
  ⟨c3_extraction_amended.1 "x ".data "a".data " y".data (by decide) (by decide),
   c3_extraction_amended.2.2 oC3 [] dmC2 initState (apiU "e3") "inv.pdf" _
     (by decide) rfl rfl (by decide) (by decide)⟩

/-- Counterexample to C3 as stated: on the response text `geminiText3`,
which contains two well-formed JSON objects amid free text, the first
well-formed JSON object (what the claim says is extracted) yields
`"passport"`, but the source's extraction — the greedy first-`\x7b`-to-
last-`\x7d` span fed to `json.loads` — fails to parse and yields no
diagnosis. -/
theorem c3_counterexample :
    spec_extract_required_type geminiText3 = some "passport" ∧
    extract_required_type geminiText3 = none := by
  decide

/-- Witness for C4: under `oC4` the transport completes with status 422, so
the attempt is recorded as a failure carrying the status code and response
body. -/
theorem c4_witness :
    test_one_api oC4 [] 0 (apiU "e4") "f.jpg" ⟨some "invoice"⟩ =
      .completed "e4" "POST" "http://h/upload" "f.jpg" (some "invoice")
        false 422 "bad document" [("x", "y")] :=
  (c4_outcome_classification oC4 [] 0 (apiU "e4") "f.jpg" ⟨some "invoice"⟩).2.2.2
    ("POST", "http://h/upload", [],
      ⟨some [(some "file", FormValue.file "f.jpg" [55] "image/jpeg")], none⟩)
    ⟨422, "bad document", [("x", "y")]⟩ rfl rfl

/-- C10: when the initial attempt fails and the retry also fails, the loop
records exactly one Attempt Result — the initial one, with no
`retry_success`/`correct_document` annotation — and the report entry built
from it lists only the initial document in `failedFiles` (with its truncated
error text) and nothing in `correctFiles`; the retry document appears
nowhere in the entry. -/
theorem c10_failed_retry_not_recorded (o : Oracles) (env : EnvMap) (doc_map : DocMap)
    (st : RunState) (api : ApiConfig) (rf : String) (r retry : AttemptResult)
    (t m : String)
    (hav : available_docs doc_map st.used ≠ [])
    (hrf : rf = o.pick st.pcount ((available_docs doc_map st.used).map (fun e => e.1)))
    (hr : r = test_one_api o env st.tcount api rf ((lookupD doc_map rf).getD ⟨none⟩))
    (hfail : r.success = false)
    (hdiag : ask_gemini_what_went_wrong o.diag st.dcount r = some t)
    (ht : t ≠ "")
    (hfind : find_document_by_type doc_map t = some m)
    (hretry : retry = test_one_api o env (st.tcount + 1) api m ((lookupD doc_map m).getD ⟨none⟩))
    (hrfail : retry.success = false) :
    test_apis_step o env doc_map st api =
      { results := st.results ++ [⟨r, false, none⟩]
        used := st.used
        tcount := st.tcount + 2
        dcount := st.dcount + 1
        pcount := st.pcount + 1 } ∧
    makeReportEntry doc_map ⟨r, false, none⟩ =
      { apiName := r.api_name
        method := r.get_method
        url := r.get_url
        correctFiles := []
        failedFiles := [⟨basename r.file_used, r.get_document_type,
          truncateStr 200 r.error_message⟩] } := by
  subst hrf hr hretry
  constructor
  · simp only [test_apis_step, if_neg hav, hfail, hdiag, hfind, hrfail, ht]
    simp [ht]
  · simp [makeReportEntry, hfail]

/-- Witness for C10: under `oC10` the initial invoice attempt fails with
422, the diagnosis requires a passport, the retry with `pass.pdf` fails with
500; one unannotated record is kept and the report entry shows only the
invoice in `failedFiles`. -/
theorem c10_witness :
    test_apis_step oC10 [] dmC2 initState (apiU "e10") =
      { results := [⟨AttemptResult.completed "e10" "POST" "http://h/upload" "inv.pdf"
          (some "invoice") false 422 "wrong doc type" [], false, none⟩]
        used := []
        tcount := 2
        dcount := 1
        pcount := 1 } ∧
    makeReportEntry dmC2 ⟨AttemptResult.completed "e10" "POST" "http://h/upload" "inv.pdf"
        (some "invoice") false 422 "wrong doc type" [], false, none⟩ =
      { apiName := "e10"
        method := "POST"
        url := "http://h/upload"
        correctFiles := []
        failedFiles := [⟨"inv.pdf", some "invoice", "wrong doc type"⟩] } :=
  c10_failed_retry_not_recorded oC10 [] dmC2 initState (apiU "e10") "inv.pdf" _ _
    "passport" "pass.pdf" (by decide) rfl rfl (by decide) (by decide) (by decide)
    (by decide) rfl (by decide)
